import Mathlib

/-!
Verification development for the report/photo editing and on-device
persistence pipeline of the Relatoriofacil application.

The development shallowly embeds the TypeScript source:

* `types.ts` (entity model) becomes Lean structures with decidable equality;
* `services/db.ts` (IndexedDB store) becomes a pure state-passing model:
  every object store is a list of records keyed by its keyPath, `put` is a
  replace-or-append upsert keyed by that keyPath, and the `importBackup`
  transaction is modelled as a small machine that follows the IndexedDB
  specification: a request error whose event is not cancelled with
  `preventDefault()` aborts the enclosing transaction, rolling back all of
  its writes (the source never calls `preventDefault`);
* the image pipeline (`processImage`, `getPhotoQuality`, `PHOTO_SETTINGS`)
  becomes exact rational arithmetic: JavaScript numbers are modelled by ℚ
  where fractional values arise and by ℕ where the DOM guarantees integers
  (`naturalWidth`, `videoWidth`, ... are integral), `Math.floor` becomes
  `Int.floor`;
* the annotation editor commit/discard paths and the photo id generators
  become pure list transformations, with the canvas JPEG encoder left as an
  abstract function parameter.
-/

/-- Entity `ReportPhoto` from `types.ts`: `caption` and `edited` are optional
fields, so they are modelled with `Option`. -/
structure ReportPhoto where
  id : String
  base64 : String
  caption : Option String
  edited : Option Bool
deriving DecidableEq, Repr

/-- Entity `ReportTemplate` from `types.ts`. -/
structure ReportTemplate where
  id : String
  title : String
  omDescription : String
  activityExecuted : String
  createdAt : Nat
deriving DecidableEq, Repr

/-- The `activityType` union `Preventiva | Corretiva` of `ReportData`. -/
inductive ActivityType where
  | preventiva
  | corretiva
deriving DecidableEq, Repr

/-- The `status` union `draft | completed` of `ReportData`. -/
inductive ReportStatus where
  | draft
  | completed
deriving DecidableEq, Repr

/-- Entity `ReportData` from `types.ts`; optional fields become `Option`. -/
structure ReportData where
  id : String
  templateId : String
  date : String
  equipment : String
  omNumber : String
  activityType : ActivityType
  activityExecuted : Option String
  startTime : String
  endTime : String
  iamoDeviation : Bool
  iamoDeviationDetails : String
  omFinished : Bool
  pendings : Bool
  pendingDetails : Option String
  team : String
  workCenter : String
  technicians : String
  photos : List ReportPhoto
  status : Option ReportStatus
  createdAt : Nat
  updatedAt : Option Nat
deriving DecidableEq, Repr

/-- Entity `User` from `types.ts`. -/
structure User where
  username : String
  password : String
  createdAt : Nat
deriving DecidableEq, Repr

/-- IndexedDB `store.put` on an object store whose keyPath is `key`: replace
the record with the same key if present, otherwise append the record. -/
def putByKey {α : Type} (key : α → String) (v : α) : List α → List α
  | [] => [v]
  | x :: xs => if key x = key v then v :: xs else x :: putByKey key v xs

/-- IndexedDB `store.get k`: the record with key `k`, or an explicit absent
value when no record has that key. -/
def findByKey {α : Type} (key : α → String) (k : String) (l : List α) : Option α :=
  l.find? (fun x => key x = k)

/-- The three object stores of `SerraSulReportsDB` (`services/db.ts`):
`templates` and `reports` keyed by `id`, `users` keyed by `username`. -/
structure DBState where
  templates : List ReportTemplate
  reports : List ReportData
  users : List User
deriving DecidableEq, Repr

/-- A freshly created database: all three stores empty. -/
def emptyDB : DBState :=
  { templates := [], reports := [], users := [] }

/-- `saveTemplate` from `services/db.ts`: `put` on the templates store. -/
def saveTemplate (t : ReportTemplate) (st : DBState) : DBState :=
  { st with templates := putByKey ReportTemplate.id t st.templates }

/-- `saveReport` from `services/db.ts`: `put` on the reports store. -/
def saveReport (r : ReportData) (st : DBState) : DBState :=
  { st with reports := putByKey ReportData.id r st.reports }

/-- `getReport` from `services/db.ts`: `get` by id on the reports store,
resolving with the record or with an absent value (never an error). -/
def getReport (id : String) (st : DBState) : Option ReportData :=
  findByKey ReportData.id id st.reports

/-- `getTemplates` from `services/db.ts`: `getAll` on the templates store. -/
def getTemplates (st : DBState) : List ReportTemplate :=
  st.templates

/-- `getAllReports` from `services/db.ts`: `getAll` on the reports store. -/
def getAllReports (st : DBState) : List ReportData :=
  st.reports

/-- `deleteTemplate` from `services/db.ts`: unconditional `delete` by key on
the templates store only; the reports and users stores are not in the
transaction scope. -/
def deleteTemplate (id : String) (st : DBState) : DBState :=
  { st with templates := st.templates.filter (fun t => t.id ≠ id) }

/-- `deleteReport` from `services/db.ts`: unconditional `delete` by key on
the reports store only. -/
def deleteReport (id : String) (st : DBState) : DBState :=
  { st with reports := st.reports.filter (fun r => r.id ≠ id) }

/-- `validateUser` from `services/db.ts`: the hard-coded `admin`/`admin`
backdoor is checked before the database is even opened; otherwise the user
record is looked up by username and the stored plaintext password compared,
resolving `false` both on mismatch and on a missing record. The function is
total into `Bool`: the not-found path never throws. -/
def validateUser (st : DBState) (username password : String) : Bool :=
  if username = "admin" ∧ password = "admin" then true
  else
    match findByKey User.username username st.users with
    | some user => user.password = password
    | none => false

/-- Outcome of the `importBackup` promise in `services/db.ts`:
`resolved` is the success path, `rejectedSomeItems` is the
`reject(new Error("Erro ao importar alguns itens."))` branch guarded by the
`errorOccurred` flag inside `tx.oncomplete`, and `rejectedTxAborted` is the
rejection produced through `tx.onerror` after the transaction aborts. -/
inductive ImportResult where
  | resolved
  | rejectedSomeItems
  | rejectedTxAborted
deriving DecidableEq, Repr

/-- The backup payload `{ reports, templates }` accepted by `importBackup`. -/
structure BackupData where
  reports : List ReportData
  templates : List ReportTemplate
deriving DecidableEq, Repr

/-- One phase of the `importBackup` transaction: issue a `put` per item, in
order, against the staged contents `store` of one object store. `fails`
says which put requests the storage engine fails (e.g. quota exhaustion).
On a failed request the source sets `errorOccurred = true` in `req.onerror`
but never calls `preventDefault()` on the error event, so per the IndexedDB
specification the uncancelled error aborts the transaction: `none` is
returned and every staged write is discarded. On success the staged store
and the `errorOccurred` flag are returned. -/
def runPuts {α : Type} (key : α → String) (fails : α → Bool) :
    List α → List α → Bool → Option (List α × Bool)
  | [], store, errorOccurred => some (store, errorOccurred)
  | x :: xs, store, errorOccurred =>
    if fails x then none
    else runPuts key fails xs (putByKey key x store) errorOccurred

/-- Bulk upsert of a list of items into one object store, in list order. -/
def putAll {α : Type} (key : α → String) (items : List α) (store : List α) : List α :=
  items.foldl (fun s i => putByKey key i s) store

/-- `importBackup` from `services/db.ts`, modelled over the IndexedDB
transaction semantics. The transaction scope is only the templates and
reports stores. All template puts are issued, then all report puts. If any
put fails, the uncancelled request error aborts the transaction: every
staged write (including already succeeded sibling writes) is rolled back
and the promise is rejected through `tx.onerror`. Only if every put
succeeds does `tx.oncomplete` fire, where the `errorOccurred` flag decides
between `rejectedSomeItems` and `resolved`. -/
def importBackup (failsT : ReportTemplate → Bool) (failsR : ReportData → Bool)
    (data : BackupData) (st : DBState) : DBState × ImportResult :=
  match runPuts ReportTemplate.id failsT data.templates st.templates false with
  | none => (st, ImportResult.rejectedTxAborted)
  | some (ts, err1) =>
    match runPuts ReportData.id failsR data.reports st.reports err1 with
    | none => (st, ImportResult.rejectedTxAborted)
    | some (rs, err2) =>
      if err2 then
        ({ st with templates := ts, reports := rs }, ImportResult.rejectedSomeItems)
      else
        ({ st with templates := ts, reports := rs }, ImportResult.resolved)

/-- The `PHOTO_SETTINGS` table of the main application file: a JavaScript
object keyed by the quality tier, giving `(maxWidth, quality)`. An access
with any other key yields `undefined`, modelled as `none`. -/
def PHOTO_SETTINGS (q : String) : Option (ℕ × ℚ) :=
  if q = "high" then some (1600, 8 / 10)
  else if q = "medium" then some (1024, 7 / 10)
  else if q = "low" then some (800, 6 / 10)
  else none

/-- `getPhotoQuality` from the main application file:
`(localStorage.getItem('photoQuality') as PhotoQuality) || 'medium'`.
`localStorage.getItem` returns the stored string or `null`; the `||`
fallback fires exactly on the falsy values `null` and the empty string, and
the `as` cast has no runtime effect, so any other stored string is passed
through unchanged. -/
def getPhotoQuality (stored : Option String) : String :=
  match stored with
  | none => "medium"
  | some s => if s = "" then "medium" else s

/-- The dimension computation of `processImage`. The source reads the
intrinsic `width`/`height` (integers in the DOM, hence ℕ); if either is
zero it returns the empty string (`none` here). If either dimension exceeds
`maxW` it rescales in exact arithmetic — `ratio = width / height`; when
`width > height` it sets `width = maxW, height = width / ratio`, otherwise
`height = maxW, width = height * ratio` — and finally applies `Math.floor`
to both dimensions (`Int.floor` of the exact rationals). -/
def processImageDims (maxW w h : ℕ) : Option (ℤ × ℤ) :=
  if w = 0 ∨ h = 0 then none
  else if maxW < w ∨ maxW < h then
    if h < w then
      some (⌊(maxW : ℚ)⌋, ⌊(maxW : ℚ) / ((w : ℚ) / (h : ℚ))⌋)
    else
      some (⌊(maxW : ℚ) * ((w : ℚ) / (h : ℚ))⌋, ⌊(maxW : ℚ)⌋)
  else some (⌊(w : ℚ)⌋, ⌊(h : ℚ)⌋)

/-- Aspect-ratio preservation within 1 percent, stated multiplicatively to
avoid division: `|ow / oh - w / h| ≤ (w / h) / 100` multiplied through by
the positive `oh * h` becomes `100 * |ow * h - oh * w| ≤ oh * w`. -/
def aspectOk (w h : ℕ) (ow oh : ℤ) : Prop :=
  (100 * (ow * (h : ℤ) - oh * (w : ℤ)).natAbs : ℤ) ≤ oh * (w : ℤ)

/-- Result of one `processImage` call. `typeError` is the JavaScript
`TypeError` thrown when `PHOTO_SETTINGS[qualityMode]` is `undefined` and
`settings.maxWidth` is accessed; `emptyResult` is the explicit `return ''`
on an invalid source; `dataUri` carries the raster dimensions of the canvas
and the JPEG quality passed to `canvas.toDataURL`. -/
inductive ProcessOutcome where
  | typeError
  | emptyResult
  | dataUri (dims : ℤ × ℤ) (quality : ℚ)
deriving DecidableEq, Repr

/-- `processImage` from the main application file: reads the ambient quality
policy, looks the tier up in `PHOTO_SETTINGS`, and computes the output
raster dimensions and encoding quality. -/
def processImage (stored : Option String) (w h : ℕ) : ProcessOutcome :=
  match PHOTO_SETTINGS (getPhotoQuality stored) with
  | none => ProcessOutcome.typeError
  | some (maxW, q) =>
    match processImageDims maxW w h with
    | none => ProcessOutcome.emptyResult
    | some dims => ProcessOutcome.dataUri dims q

/-- Photo id in `capturePhoto`: `Date.now().toString()` — the millisecond
timestamp alone, in decimal. -/
def capturePhotoId (now : ℕ) : String :=
  toString now

/-- Photo id in `handlePhotoUpload`: `Date.now() + Math.random().toString()`
— JavaScript coerces the number to its decimal string and concatenates the
string form of the random value. -/
def uploadPhotoId (now : ℕ) (rand : String) : String :=
  toString now ++ rand

/-- `capturePhoto` from the main application file: processes the current
video frame; when `processImage` returns a non-empty string the new photo
(id from the timestamp alone, empty caption) is appended to the photo list,
otherwise nothing happens. -/
def capturePhoto (now : ℕ) (processedBase64 : String) (photos : List ReportPhoto) :
    List ReportPhoto :=
  if processedBase64 = "" then photos
  else photos ++ [{ id := capturePhotoId now, base64 := processedBase64,
                    caption := some "", edited := none }]

/-- `handlePhotoUpload` from the main application file. The files are
processed with a `for ... of` loop, strictly one after the other, each
decode/resize/encode `await`ed before the next file starts. `outcome f`
models the per-file result: `none` when the reader, the image decode or
`processImage` throws (the surrounding `try`/`catch` logs and skips the
file), `some b` when processing produced the string `b` (pushed only when
non-empty, matching `if (base64)`). `idOf` supplies the time-plus-random id
of the staged photo. -/
def handlePhotoUpload {F : Type} (idOf : F → String) (outcome : F → Option String)
    (files : List F) : List ReportPhoto :=
  files.foldl
    (fun processedPhotos file =>
      match outcome file with
      | none => processedPhotos
      | some b =>
        if b = "" then processedPhotos
        else processedPhotos ++ [{ id := idOf file, base64 := b,
                                   caption := some "", edited := none }])
    []

/-- The fixed JPEG quality of the annotation editor commit:
`canvasRef.current.toDataURL('image/jpeg', 0.9)`. -/
def editorCommitQuality : ℚ :=
  9 / 10

/-- `saveEditorChanges` from the main application file. `encode` stands for
`canvasRef.current.toDataURL('image/jpeg', ·)` on the current raster
surface. The photo whose id matches the open photo gets the re-encoded
buffer, the caption field currently in the editor, and `edited = true`;
every other photo is untouched. The ambient quality policy `storedQuality`
is available to the function (the global is in scope) but is never read —
the commit always encodes at `editorCommitQuality`. -/
def saveEditorChanges (encode : ℚ → String) (storedQuality : Option String)
    (photos : List ReportPhoto) (currentPhotoId editCaption : String) :
    List ReportPhoto :=
  photos.map (fun p =>
    if p.id = currentPhotoId then
      { p with base64 := encode editorCommitQuality,
               caption := some editCaption, edited := some true }
    else p)

/-- Closing the editor modal without saving (`onClick={() => setEditorOpen(false)}`):
only the modal flag changes; the photo list of the report is untouched. -/
def closeEditorWithoutSaving (photos : List ReportPhoto) : List ReportPhoto :=
  photos

/-- The draft-list join of `HomeScreen.loadData`:
`tmpls.find(tmpl => tmpl.id === r.templateId)` followed by
`t?.title || 'Modelo Excluído'` — the sentinel is shown when the template
is missing (and, by the `||` fallback, when its title is empty). -/
def templateTitleFor (tmpls : List ReportTemplate) (r : ReportData) : String :=
  match tmpls.find? (fun t => t.id = r.templateId) with
  | some t => if t.title = "" then "Modelo Excluído" else t.title
  | none => "Modelo Excluído"

/-- Concrete template used to instantiate universally quantified results. -/
def demoTemplate : ReportTemplate :=
  { id := "t1", title := "Troca de rolete", omDescription := "OM fixa",
    activityExecuted := "Atividade padrao", createdAt := 1700000000000 }

/-- Concrete report used to instantiate universally quantified results. -/
def demoReport : ReportData :=
  { id := "r1", templateId := "t1", date := "2026-10-12", equipment := "TR-2001",
    omNumber := "123456", activityType := ActivityType.corretiva,
    activityExecuted := some "Troca executada", startTime := "08:00",
    endTime := "17:00", iamoDeviation := false, iamoDeviationDetails := "",
    omFinished := true, pendings := false, pendingDetails := some "",
    team := "A", workCenter := "SC108HH", technicians := "Rafael",
    photos := [], status := some ReportStatus.draft,
    createdAt := 1700000000001, updatedAt := none }

/-- A second concrete report with the same id as `demoReport` but different
field contents, for the last-write-wins instantiation. -/
def demoReportOld : ReportData :=
  { demoReport with equipment := "TR-1999", technicians := "Equipe B",
                    updatedAt := some 1600000000000 }

/-- Concrete backup payload whose single report put is made to fail. -/
def demoBackup : BackupData :=
  { reports := [demoReport], templates := [demoTemplate] }

/-- Concrete photos for the annotation-editor instantiations. -/
def demoPhotoA : ReportPhoto :=
  { id := "p1", base64 := "data:image/jpeg;base64,AAA", caption := some "antes",
    edited := none }

/-- Second concrete photo, not targeted by the editor session. -/
def demoPhotoB : ReportPhoto :=
  { id := "p2", base64 := "data:image/jpeg;base64,BBB", caption := none,
    edited := none }

/-- Concrete per-file outcome for the five-file upload scenario: file 3 is
corrupt (its decode rejects), every other file processes successfully. -/
def demoUploadOutcome (n : ℕ) : Option String :=
  if n = 3 then none else some ("data:" ++ toString n)

/-- Concrete stored user for the credential-check instantiations. -/
def demoUser : User :=
  { username := "bob", password := "pw", createdAt := 0 }

/-- A store holding exactly the one concrete user. -/
def demoUserDB : DBState :=
  { emptyDB with users := [demoUser] }

/-- Key cancellation for string concatenation: `String.append` concatenates
the underlying character lists, and list concatenation is left-cancellative. -/
theorem string_append_cancel_left {s a b : String} (h : s ++ a = s ++ b) : a = b := by
  have h1 : s.data ++ a.data = s.data ++ b.data := by
    have h2 := congrArg String.data h
    simpa using h2
  have h3 : a.data = b.data := List.append_cancel_left h1
  cases a
  cases b
  exact congrArg String.mk h3

/-- Reading back the key just written: `put` followed by `get` on the same
key yields the written record. -/
theorem findByKey_putByKey {α : Type} (key : α → String) (v : α) (l : List α) :
    findByKey key (key v) (putByKey key v l) = some v := by
  induction l with
  | nil => simp [putByKey, findByKey]
  | cons x xs ih =>
    by_cases hx : key x = key v
    · simp [putByKey, hx, findByKey]
    · simpa [putByKey, hx, findByKey] using ih

/-- Two `put`s with the same key collapse to the last one. -/
theorem putByKey_putByKey {α : Type} (key : α → String) (v w : α) (l : List α)
    (h : key w = key v) : putByKey key v (putByKey key w l) = putByKey key v l := by
  induction l with
  | nil => simp [putByKey, h]
  | cons x xs ih =>
    by_cases hx : key x = key w
    · have hx' : key x = key v := hx.trans h
      simp [putByKey, hx, hx', h]
    · have hx' : ¬ key x = key v := fun hc => hx (hc.trans h.symm)
      simp [putByKey, hx, hx', ih]

/-- A record whose key differs from the deleted key survives nothing here:
after filtering out key `k`, no record with key `k` can be found. -/
theorem findByKey_filter_ne {α : Type} (key : α → String) (k : String) (l : List α) :
    findByKey key k (l.filter (fun x => key x ≠ k)) = none := by
  rw [findByKey, List.find?_eq_none]
  intro x hx
  have hmem := List.mem_filter.mp hx
  have hne : key x ≠ k := by simpa using hmem.2
  simpa using hne

/-- A `runPuts` phase that starts with a clear `errorOccurred` flag can only
complete with the flag still clear: the flag is set only in `req.onerror`,
and an uncancelled request error aborts the phase instead of completing it. -/
theorem runPuts_flag_clear {α : Type} (key : α → String) (fails : α → Bool) :
    ∀ (items store : List α) (s : List α) (e : Bool),
      runPuts key fails items store false = some (s, e) → e = false := by
  intro items
  induction items with
  | nil =>
    intro store s e h
    simpa [runPuts] using (And.right (by simpa [runPuts] using h : store = s ∧ false = e)).symm
  | cons x xs ih =>
    intro store s e h
    by_cases hx : fails x
    · simp [runPuts, hx] at h
    · rw [runPuts, if_neg (by simpa using hx)] at h
      exact ih (putByKey key x store) s e h

/-- When no put fails, `runPuts` completes with all items upserted in order
and the `errorOccurred` flag unchanged. -/
theorem runPuts_no_failure {α : Type} (key : α → String) :
    ∀ (items store : List α) (e : Bool),
      runPuts key (fun _ => false) items store e = some (putAll key items store, e) := by
  intro items
  induction items with
  | nil => intro store e; simp [runPuts, putAll]
  | cons x xs ih =>
    intro store e
    rw [runPuts, if_neg (by simp)]
    rw [ih (putByKey key x store) e]
    simp [putAll]

/-- C4: saving a Report and immediately reading it back by its id yields a
structurally equal record (the store itself never touches `updatedAt`; the
caller refreshes it before saving, so store-level equality is exact);
`saveReport` is an idempotent upsert keyed by `id` with last-write-wins
semantics. -/
theorem saveReport_roundtrip_spec : ∀ (r : ReportData) (st : DBState),
    getReport r.id (saveReport r st) = some r
    ∧ saveReport r (saveReport r st) = saveReport r st
    ∧ ∀ (rOld : ReportData) (st2 : DBState), rOld.id = r.id →
        saveReport r (saveReport rOld st2) = saveReport r st2 := by
  intro r st
  refine ⟨?_, ?_, ?_⟩
  · simpa [getReport, saveReport] using findByKey_putByKey ReportData.id r st.reports
  · simp [saveReport, putByKey_putByKey ReportData.id r r st.reports rfl]
  · intro rOld st2 h
    simp [saveReport, putByKey_putByKey ReportData.id r rOld st2.reports h]

/-- C4 witness: the round trip and the last-write-wins upsert evaluated on a
concrete report pair sharing one id. -/
theorem saveReport_roundtrip_witness :
    getReport demoReport.id (saveReport demoReport emptyDB) = some demoReport
    ∧ saveReport demoReport (saveReport demoReportOld emptyDB) = saveReport demoReport emptyDB :=
  ⟨(saveReport_roundtrip_spec demoReport emptyDB).1,
   (saveReport_roundtrip_spec demoReport emptyDB).2.2 demoReportOld emptyDB (by decide)⟩

/-- C6: `validateUser "admin" "admin"` resolves true against every store
state, the empty store included; for every other username/password pair the
stored user is looked up and any mismatch or missing record resolves false
(the lookup result is an explicit optional value, so the not-found path
cannot throw). -/
theorem validateUser_spec :
    (∀ st : DBState, validateUser st ("admin") ("admin") = true)
    ∧ validateUser emptyDB ("admin") ("admin") = true
    ∧ ∀ (st : DBState) (u p : String), ¬ (u = "admin" ∧ p = "admin") →
        (findByKey User.username u st.users = none → validateUser st u p = false)
        ∧ ∀ usr : User, findByKey User.username u st.users = some usr →
            usr.password ≠ p → validateUser st u p = false := by
  refine ⟨fun st => by simp [validateUser], by simp [validateUser], ?_⟩
  intro st u p hnot
  constructor
  · intro hfind
    simp [validateUser, hnot, hfind]
  · intro usr hfind hne
    simp [validateUser, hnot, hfind, hne]

/-- C6 witness: the backdoor against a store holding only user `bob`, a
wrong password for `bob`, and a lookup of the absent user `eve`. -/
theorem validateUser_witness :
    validateUser demoUserDB ("admin") ("admin") = true
    ∧ validateUser demoUserDB ("bob") ("wrong") = false
    ∧ validateUser demoUserDB ("eve") ("pw") = false :=
  ⟨validateUser_spec.1 demoUserDB,
   (validateUser_spec.2.2 demoUserDB ("bob") ("wrong") (by decide)).2 demoUser
     (by decide) (by decide),
   (validateUser_spec.2.2 demoUserDB ("eve") ("pw") (by decide)).1 (by decide)⟩

/-- C7: deleting the Template referenced by a Report touches only the
templates store — the Report stays readable unchanged; the template lookup
afterwards yields an explicit absent value rather than raising; and the
home-screen join renders the "Modelo Excluído" sentinel for that Report. -/
theorem deleteTemplate_dangling_spec : ∀ (st : DBState) (r : ReportData),
    getReport r.id (deleteTemplate r.templateId st) = getReport r.id st
    ∧ findByKey ReportTemplate.id r.templateId
        (getTemplates (deleteTemplate r.templateId st)) = none
    ∧ templateTitleFor (getTemplates (deleteTemplate r.templateId st)) r = "Modelo Excluído" := by
  intro st r
  have h2 : findByKey ReportTemplate.id r.templateId
      (getTemplates (deleteTemplate r.templateId st)) = none := by
    simpa [deleteTemplate, getTemplates] using
      findByKey_filter_ne ReportTemplate.id r.templateId st.templates
  refine ⟨rfl, h2, ?_⟩
  have h3 : (getTemplates (deleteTemplate r.templateId st)).find?
      (fun t => t.id = r.templateId) = none := by
    simpa [findByKey] using h2
  simp [templateTitleFor, h3]

/-- C10: the `importBackup` transaction is scoped to the templates and
reports stores only, so the users store is unchanged by every import — for
every backup payload, every starting state and every pattern of individual
write failures. -/
theorem importBackup_users_frame : ∀ (failsT : ReportTemplate → Bool)
    (failsR : ReportData → Bool) (data : BackupData) (st : DBState),
    ((importBackup failsT failsR data st).1).users = st.users := by
  intro failsT failsR data st
  unfold importBackup
  split
  · rfl
  · split
    · rfl
    · split <;> rfl

/-- C1 (code bug): in `importBackup` the per-item `req.onerror` handlers set
`errorOccurred` but never call `preventDefault()`, so any individual write
failure aborts the whole IndexedDB transaction. Consequently (i) the
operation never rejects with the intended partial-failure error — the
`errorOccurred` check inside `tx.oncomplete` is dead code, making the
outcome always plain success or an aborted-transaction rejection; (ii) when
no put fails, everything is upserted in one transaction and the promise
resolves; (iii) at the concrete failing input — a backup with one template
and one report whose report put fails — the whole transaction rolls back:
even the succeeded template write is discarded, contradicting the claimed
commit-the-successes semantics. -/
theorem importBackup_abort_semantics :
    (∀ (failsT : ReportTemplate → Bool) (failsR : ReportData → Bool)
       (data : BackupData) (st : DBState),
        (importBackup failsT failsR data st).2 = ImportResult.resolved
        ∨ (importBackup failsT failsR data st).2 = ImportResult.rejectedTxAborted)
    ∧ (∀ (data : BackupData) (st : DBState),
        importBackup (fun _ => false) (fun _ => false) data st
        = ({ st with templates := putAll ReportTemplate.id data.templates st.templates,
                     reports := putAll ReportData.id data.reports st.reports },
           ImportResult.resolved))
    ∧ importBackup (fun _ => false) (fun _ => true) demoBackup emptyDB
        = (emptyDB, ImportResult.rejectedTxAborted) := by
  refine ⟨?_, ?_, by decide⟩
  · intro failsT failsR data st
    cases h1 : runPuts ReportTemplate.id failsT data.templates st.templates false with
    | none => exact Or.inr (by simp [importBackup, h1])
    | some p =>
      obtain ⟨ts, e1⟩ := p
      have he1 : e1 = false :=
        runPuts_flag_clear ReportTemplate.id failsT data.templates st.templates ts e1 h1
      subst he1
      cases h2 : runPuts ReportData.id failsR data.reports st.reports false with
      | none => exact Or.inr (by simp [importBackup, h1, h2])
      | some q =>
        obtain ⟨rs, e2⟩ := q
        have he2 : e2 = false :=
          runPuts_flag_clear ReportData.id failsR data.reports st.reports rs e2 h2
        subst he2
        exact Or.inl (by simp [importBackup, h1, h2])
  · intro data st
    simp [importBackup, runPuts_no_failure]

/-- Generalized accumulator form of the upload loop: the `for ... of` body,
folded from any accumulator, appends exactly the in-order successes. -/
theorem handlePhotoUpload_foldl {F : Type} (idOf : F → String) (outcome : F → Option String) :
    ∀ (files : List F) (acc : List ReportPhoto),
      files.foldl
        (fun processedPhotos file =>
          match outcome file with
          | none => processedPhotos
          | some b =>
            if b = "" then processedPhotos
            else processedPhotos ++ [{ id := idOf file, base64 := b,
                                       caption := some "", edited := none }]) acc
      = acc ++ files.filterMap (fun f =>
          match outcome f with
          | none => none
          | some b =>
            if b = "" then none
            else some { id := idOf f, base64 := b, caption := some "", edited := none }) := by
  intro files
  induction files with
  | nil => intro acc; simp
  | cons f fs ih =>
    intro acc
    rw [List.foldl_cons, List.filterMap_cons]
    cases houtcome : outcome f with
    | none => simp only [houtcome]; rw [ih]
    | some b =>
      by_cases hb : b = ""
      · simp only [houtcome, hb, if_pos rfl]
        rw [ih]
        simp
      · simp only [houtcome, if_neg hb]
        rw [ih]
        simp

/-- C5: the upload batch is a sequential left fold over the files — each
file is handled completely before the next, and processing a batch split in
two is the first part followed by the second; a failed or empty per-file
outcome is skipped without affecting the others, so the staged result is
exactly the in-order list of successes; the function is total, so no
unhandled error escapes. Concretely, five files with file 3 corrupt stage
exactly the four photos of files 1, 2, 4, 5 in order. -/
theorem handlePhotoUpload_spec :
    (∀ (F : Type) (idOf : F → String) (outcome : F → Option String) (files gs : List F),
        handlePhotoUpload idOf outcome files
          = files.filterMap (fun f =>
              match outcome f with
              | none => none
              | some b =>
                if b = "" then none
                else some { id := idOf f, base64 := b, caption := some "", edited := none })
        ∧ handlePhotoUpload idOf outcome (files ++ gs)
          = handlePhotoUpload idOf outcome files ++ handlePhotoUpload idOf outcome gs)
    ∧ (handlePhotoUpload (fun n => toString n) demoUploadOutcome [1, 2, 3, 4, 5]).map ReportPhoto.id
        = ["1", "2", "4", "5"] := by
  have hmain : ∀ (F : Type) (idOf : F → String) (outcome : F → Option String) (files : List F),
      handlePhotoUpload idOf outcome files
        = files.filterMap (fun f =>
            match outcome f with
            | none => none
            | some b =>
              if b = "" then none
              else some { id := idOf f, base64 := b, caption := some "", edited := none }) := by
    intro F idOf outcome files
    simpa [handlePhotoUpload] using handlePhotoUpload_foldl idOf outcome files []
  refine ⟨fun F idOf outcome files gs => ⟨hmain F idOf outcome files, ?_⟩, by decide⟩
  rw [hmain, hmain, hmain, List.filterMap_append]

/-- C3: committing the annotation editor encodes the raster surface at the
fixed JPEG quality 0.9 — the ambient quality policy does not influence the
result — and rewrites exactly the open photo with the new buffer, the
edited caption and `edited = true`, leaving all other photos untouched;
closing the editor without saving leaves the photo list exactly as it
was. -/
theorem editorCommit_spec :
    (∀ (encode : ℚ → String) (sq1 sq2 : Option String) (photos : List ReportPhoto)
       (pid cap : String),
        saveEditorChanges encode sq1 photos pid cap
          = saveEditorChanges encode sq2 photos pid cap)
    ∧ editorCommitQuality = 9 / 10
    ∧ (∀ (encode : ℚ → String) (sq : Option String) (photos : List ReportPhoto)
         (pid cap : String) (p : ReportPhoto), p ∈ photos → p.id = pid →
          { p with base64 := encode editorCommitQuality, caption := some cap,
                   edited := some true } ∈ saveEditorChanges encode sq photos pid cap)
    ∧ (∀ (encode : ℚ → String) (sq : Option String) (photos : List ReportPhoto)
         (pid cap : String) (p : ReportPhoto), p ∈ photos → p.id ≠ pid →
          p ∈ saveEditorChanges encode sq photos pid cap)
    ∧ ∀ photos : List ReportPhoto, closeEditorWithoutSaving photos = photos := by
  refine ⟨fun _ _ _ _ _ _ => rfl, rfl, ?_, ?_, fun _ => rfl⟩
  · intro encode sq photos pid cap p hmem hid
    have h2 := List.mem_map_of_mem
      (fun q : ReportPhoto =>
        if q.id = pid then
          { q with base64 := encode editorCommitQuality, caption := some cap,
                   edited := some true }
        else q) hmem
    simpa [saveEditorChanges, hid] using h2
  · intro encode sq photos pid cap p hmem hid
    have h2 := List.mem_map_of_mem
      (fun q : ReportPhoto =>
        if q.id = pid then
          { q with base64 := encode editorCommitQuality, caption := some cap,
                   edited := some true }
        else q) hmem
    simpa [saveEditorChanges, hid] using h2

/-- C3 witness: a two-photo list where the editor session targets photo
`p1`: the committed copy of `p1` and the untouched `p2` are both in the
result, and discarding returns the list unchanged. -/
theorem editorCommit_witness :
    ({ demoPhotoA with
        base64 := "data:image/jpeg;base64,EDITED",
        caption := some "depois", edited := some true } : ReportPhoto)
      ∈ saveEditorChanges (fun _ => "data:image/jpeg;base64,EDITED") none
          [demoPhotoA, demoPhotoB] ("p1") ("depois")
    ∧ demoPhotoB ∈ saveEditorChanges (fun _ => "data:image/jpeg;base64,EDITED") none
          [demoPhotoA, demoPhotoB] ("p1") ("depois")
    ∧ closeEditorWithoutSaving [demoPhotoA, demoPhotoB] = [demoPhotoA, demoPhotoB] :=
  ⟨editorCommit_spec.2.2.1 (fun _ => "data:image/jpeg;base64,EDITED") none
      [demoPhotoA, demoPhotoB] ("p1") ("depois") demoPhotoA (by simp) (by decide),
   editorCommit_spec.2.2.2.1 (fun _ => "data:image/jpeg;base64,EDITED") none
      [demoPhotoA, demoPhotoB] ("p1") ("depois") demoPhotoB (by simp) (by decide),
   editorCommit_spec.2.2.2.2 [demoPhotoA, demoPhotoB]⟩

/-- C9 counterexample: camera capture derives the photo id from the
timestamp alone, so two captures in the same millisecond produce two photos
in the report with the identical id "1000" — the ids are not distinct,
refuting time-plus-random uniqueness for every entry path. -/
theorem capturePhotoId_collision_counterexample :
    ((capturePhoto 1000 ("data:b") (capturePhoto 1000 ("data:a") [])).map ReportPhoto.id
        = ["1000", "1000"])
    ∧ ¬ ((capturePhoto 1000 ("data:b") (capturePhoto 1000 ("data:a") [])).map
          ReportPhoto.id).Nodup := by
  exact ⟨by decide, by decide⟩

/-- C9 (amended): gallery-upload ids concatenate the millisecond timestamp
with the stringified random component, so same-millisecond uploads with
different random values receive distinct ids; camera-capture ids are the
bare timestamp string — a function of the millisecond alone, with no random
component — appended for each non-empty captured frame. -/
theorem photoId_generation_spec :
    (∀ (now : ℕ) (r1 r2 : String), r1 ≠ r2 → uploadPhotoId now r1 ≠ uploadPhotoId now r2)
    ∧ ∀ (now : ℕ) (b : String) (photos : List ReportPhoto), b ≠ "" →
        (capturePhoto now b photos).map ReportPhoto.id
          = photos.map ReportPhoto.id ++ [capturePhotoId now] := by
  constructor
  · intro now r1 r2 hne heq
    exact hne (string_append_cancel_left (by simpa [uploadPhotoId] using heq))
  · intro now b photos hb
    simp [capturePhoto, hb]

/-- C9 witness: distinct random components in the same millisecond give
distinct upload ids, and a capture appends a photo carrying the bare
timestamp id. -/
theorem photoId_generation_witness :
    uploadPhotoId 1000 ("0.25") ≠ uploadPhotoId 1000 ("0.5")
    ∧ (capturePhoto 7 ("data:x") []).map ReportPhoto.id = [capturePhotoId 7] :=
  ⟨photoId_generation_spec.1 1000 ("0.25") ("0.5") (by decide),
   by simpa using photoId_generation_spec.2 7 ("data:x") [] (by decide)⟩

/-- The exact value of the scaled height `maxWidth / (width / height)`
floored: with exact rational arithmetic it is the natural floor division
`maxWidth * height / width`. -/
theorem floor_scaled_height (maxW w h : ℕ) :
    ⌊(maxW : ℚ) / ((w : ℚ) / (h : ℚ))⌋ = ((maxW * h / w : ℕ) : ℤ) := by
  rw [div_div_eq_mul_div]
  have hcast : (maxW : ℚ) * (h : ℚ) / (w : ℚ) = ((maxW * h : ℕ) : ℚ) / ((w : ℕ) : ℚ) := by
    push_cast
    ring
  rw [hcast, Rat.floor_natCast_div_natCast, ← Int.natCast_div]

/-- The exact value of the scaled width `maxWidth * (width / height)`
floored: with exact rational arithmetic it is the natural floor division
`maxWidth * width / height`. -/
theorem floor_scaled_width (maxW w h : ℕ) :
    ⌊(maxW : ℚ) * ((w : ℚ) / (h : ℚ))⌋ = ((maxW * w / h : ℕ) : ℤ) := by
  rw [← mul_div_assoc]
  have hcast : (maxW : ℚ) * (w : ℚ) / (h : ℚ) = ((maxW * w : ℕ) : ℚ) / ((h : ℕ) : ℚ) := by
    push_cast
    ring
  rw [hcast, Rat.floor_natCast_div_natCast, ← Int.natCast_div]

/-- Closed evaluation of `processImageDims`: the floored rational scaling
equals natural floor division, making the function's value computable by
the kernel. -/
theorem processImageDims_eval (maxW w h : ℕ) :
    processImageDims maxW w h
      = if w = 0 ∨ h = 0 then none
        else if maxW < w ∨ maxW < h then
          if h < w then some ((maxW : ℤ), ((maxW * h / w : ℕ) : ℤ))
          else some (((maxW * w / h : ℕ) : ℤ), (maxW : ℤ))
        else some ((w : ℤ), (h : ℤ)) := by
  rw [processImageDims]
  by_cases h0 : w = 0 ∨ h = 0
  · rw [if_pos h0, if_pos h0]
  · rw [if_neg h0, if_neg h0]
    by_cases h1 : maxW < w ∨ maxW < h
    · rw [if_pos h1, if_pos h1]
      by_cases h2 : h < w
      · rw [if_pos h2, if_pos h2, Int.floor_natCast, floor_scaled_height]
      · rw [if_neg h2, if_neg h2, Int.floor_natCast, floor_scaled_width]
    · rw [if_neg h1, if_neg h1, Int.floor_natCast, Int.floor_natCast]

/-- C2 counterexample: at source dimensions 2048 x 1 under the medium
policy (maxDimension 1024) the output is 1024 x 0 — the maximum output
dimension is 1024 as claimed, but flooring collapses the short side to
zero, so the aspect ratio is not preserved within 1 percent (the claimed
invariant fails for extreme aspect ratios). -/
theorem processImage_extreme_aspect_counterexample :
    (0 < 2048 ∧ 0 < 1 ∧ 1024 < max 2048 1)
    ∧ processImageDims 1024 2048 1 = some (1024, 0)
    ∧ ¬ aspectOk 2048 1 1024 0 := by
  refine ⟨by decide, ?_, ?_⟩
  · rw [processImageDims_eval]
    decide
  · simp only [aspectOk]
    decide

/-- C2 (amended): for positive source dimensions, if neither side exceeds
the policy maximum the output equals the input (already integral, so the
flooring is the identity); if the longer side exceeds it, the output's
maximum dimension equals the policy maximum exactly, both outputs are
nonnegative, and — provided the smaller floored output dimension is at
least 100 pixels — the aspect ratio is preserved within 1 percent. The
100-pixel proviso is forced by the counterexample: flooring the scaled
short side can distort or even zero it for extreme aspect ratios. -/
theorem processImage_resize_spec :
    ∀ (maxW w h : ℕ), 0 < w → 0 < h →
      (max w h ≤ maxW → processImageDims maxW w h = some ((w : ℤ), (h : ℤ)))
      ∧ (maxW < max w h →
          ∃ ow oh : ℤ, processImageDims maxW w h = some (ow, oh)
            ∧ max ow oh = (maxW : ℤ) ∧ 0 ≤ min ow oh
            ∧ (100 ≤ min ow oh → aspectOk w h ow oh)) := by
  intro maxW w h hw hh
  constructor
  · intro hle
    have hboth := max_le_iff.mp hle
    rw [processImageDims_eval, if_neg (by omega), if_neg (by omega)]
  · intro hgt
    have hor : maxW < w ∨ maxW < h := lt_max_iff.mp hgt
    rw [processImageDims_eval, if_neg (show ¬ (w = 0 ∨ h = 0) by omega), if_pos hor]
    by_cases h2 : h < w
    · rw [if_pos h2]
      have hqle : maxW * h / w ≤ maxW := by
        have hdd := Nat.div_le_div_right (c := w) (Nat.mul_le_mul_left maxW (Nat.le_of_lt h2))
        rwa [Nat.mul_div_cancel maxW hw] at hdd
      have hqleZ : ((maxW * h / w : ℕ) : ℤ) ≤ (maxW : ℤ) := by exact_mod_cast hqle
      refine ⟨(maxW : ℤ), ((maxW * h / w : ℕ) : ℤ), rfl, max_eq_left hqleZ,
              le_min (by positivity) (by positivity), ?_⟩
      intro h100
      rw [min_eq_right hqleZ] at h100
      have h100n : (100 : ℕ) ≤ maxW * h / w := by exact_mod_cast h100
      have hqr : w * (maxW * h / w) + maxW * h % w = maxW * h := Nat.div_add_mod (maxW * h) w
      have hr : maxW * h % w < w := Nat.mod_lt (maxW * h) hw
      have hz : (maxW : ℤ) * (h : ℤ) - ((maxW * h / w : ℕ) : ℤ) * (w : ℤ)
          = ((maxW * h % w : ℕ) : ℤ) := by
        have hqrz : (w : ℤ) * ((maxW * h / w : ℕ) : ℤ) + ((maxW * h % w : ℕ) : ℤ)
            = (maxW : ℤ) * (h : ℤ) := by exact_mod_cast hqr
        linarith
      rw [aspectOk, hz, Int.natAbs_ofNat]
      have hnat : 100 * (maxW * h % w) ≤ (maxW * h / w) * w :=
        calc 100 * (maxW * h % w) ≤ 100 * w := Nat.mul_le_mul_left 100 (Nat.le_of_lt hr)
          _ ≤ (maxW * h / w) * w := Nat.mul_le_mul_right w h100n
      exact_mod_cast hnat
    · rw [if_neg h2]
      have hwh : w ≤ h := Nat.le_of_not_lt h2
      have hqle : maxW * w / h ≤ maxW := by
        have hhpos : 0 < h := hh
        have hdd := Nat.div_le_div_right (c := h) (Nat.mul_le_mul_left maxW hwh)
        rwa [Nat.mul_div_cancel maxW hhpos] at hdd
      have hqleZ : ((maxW * w / h : ℕ) : ℤ) ≤ (maxW : ℤ) := by exact_mod_cast hqle
      refine ⟨((maxW * w / h : ℕ) : ℤ), (maxW : ℤ), rfl, max_eq_right hqleZ,
              le_min (by positivity) (by positivity), ?_⟩
      intro h100
      rw [min_eq_left hqleZ] at h100
      have h100n : (100 : ℕ) ≤ maxW * w / h := by exact_mod_cast h100
      have hqr : h * (maxW * w / h) + maxW * w % h = maxW * w := Nat.div_add_mod (maxW * w) h
      have hr : maxW * w % h < h := Nat.mod_lt (maxW * w) hh
      have hz : ((maxW * w / h : ℕ) : ℤ) * (h : ℤ) - (maxW : ℤ) * (w : ℤ)
          = -((maxW * w % h : ℕ) : ℤ) := by
        have hqrz : (h : ℤ) * ((maxW * w / h : ℕ) : ℤ) + ((maxW * w % h : ℕ) : ℤ)
            = (maxW : ℤ) * (w : ℤ) := by exact_mod_cast hqr
        linarith
      rw [aspectOk, hz, Int.natAbs_neg, Int.natAbs_ofNat]
      have hle2 : (maxW * w / h) * h ≤ maxW * w := by
        have := Nat.le.intro hqr
        omega
      have hnat : 100 * (maxW * w % h) ≤ maxW * w :=
        calc 100 * (maxW * w % h) ≤ 100 * h := Nat.mul_le_mul_left 100 (Nat.le_of_lt hr)
          _ ≤ (maxW * w / h) * h := Nat.mul_le_mul_right h h100n
          _ ≤ maxW * w := hle2
      exact_mod_cast hnat

/-- C2 witness: 4000 x 3000 under the medium policy scales to exactly
1024 x 768, whose aspect ratio matches 4:3 within 1 percent. -/
theorem processImage_resize_witness :
    processImageDims 1024 4000 3000 = some (1024, 768) ∧ aspectOk 4000 3000 1024 768 := by
  obtain ⟨ow, oh, heq, hmax, hmin, hasp⟩ :=
    (processImage_resize_spec 1024 4000 3000 (by decide) (by decide)).2 (by decide)
  have heval : processImageDims 1024 4000 3000 = some (1024, 768) := by
    rw [processImageDims_eval]
    decide
  rw [heval] at heq
  have hpr := Option.some.inj heq
  have how : (1024 : ℤ) = ow := congrArg Prod.fst hpr
  have hoh : (768 : ℤ) = oh := congrArg Prod.snd hpr
  subst how
  subst hoh
  exact ⟨heval, hasp (by decide)⟩

/-- The dimension computation succeeds on every positive source: only a
zero dimension yields the empty result. -/
theorem processImageDims_isSome (maxW w h : ℕ) (hw : 0 < w) (hh : 0 < h) :
    ∃ d : ℤ × ℤ, processImageDims maxW w h = some d := by
  rw [processImageDims, if_neg (show ¬ (w = 0 ∨ h = 0) by omega)]
  by_cases h1 : maxW < w ∨ maxW < h
  · rw [if_pos h1]
    by_cases h2 : h < w
    · rw [if_pos h2]
      exact ⟨_, rfl⟩
    · rw [if_neg h2]
      exact ⟨_, rfl⟩
  · rw [if_neg h1]
    exact ⟨_, rfl⟩

/-- C8 counterexample: a non-empty unrecognized stored value — here
"ultra" — is passed through unchanged by `getPhotoQuality` (the `||`
fallback fires only on `null` and the empty string, and the TypeScript
cast has no runtime effect), so the read does not yield medium; the
settings lookup then has no `(maxDimension, quality)` pair and
`processImage` fails with a `TypeError` instead of operating under a valid
policy. -/
theorem photoQuality_unrecognized_counterexample :
    getPhotoQuality (some ("ultra")) = "ultra"
    ∧ getPhotoQuality (some ("ultra")) ≠ "medium"
    ∧ PHOTO_SETTINGS (getPhotoQuality (some ("ultra"))) = none
    ∧ processImage (some ("ultra")) 10 10 = ProcessOutcome.typeError := by
  refine ⟨rfl, by decide, rfl, rfl⟩

/-- C8 (amended): the settings table defines exactly the three tiers
high = (1600, 0.8), medium = (1024, 0.7), low = (800, 0.6); the persisted
setting defaults to medium when it is unset or empty — and in those states
`processImage` operates under the valid medium pair on every positive
source — but a non-empty unrecognized stored value is passed through
unchanged rather than defaulting to medium. -/
theorem photoQuality_policy_spec :
    (∀ (q : String) (p : ℕ × ℚ), PHOTO_SETTINGS q = some p →
        q = "high" ∨ q = "medium" ∨ q = "low")
    ∧ getPhotoQuality none = "medium"
    ∧ getPhotoQuality (some ("")) = "medium"
    ∧ (∀ s : String, s ≠ "" → getPhotoQuality (some s) = s)
    ∧ PHOTO_SETTINGS ("medium") = some (1024, 7 / 10)
    ∧ ∀ w h : ℕ, 0 < w → 0 < h →
        ∃ d : ℤ × ℤ, processImage none w h = ProcessOutcome.dataUri d (7 / 10) := by
  refine ⟨?_, rfl, rfl, ?_, rfl, ?_⟩
  · intro q p hsome
    rw [PHOTO_SETTINGS] at hsome
    split_ifs at hsome with h1 h2 h3
    · exact Or.inl h1
    · exact Or.inr (Or.inl h2)
    · exact Or.inr (Or.inr h3)
  · intro s hs
    simp [getPhotoQuality, hs]
  · intro w h hw hh
    obtain ⟨d, hd⟩ := processImageDims_isSome 1024 w h hw hh
    refine ⟨d, ?_⟩
    have hps : PHOTO_SETTINGS (getPhotoQuality none) = some (1024, 7 / 10) := rfl
    simp only [processImage, hps, hd]

/-- C8 witness: a recognized stored tier passes through, the medium pair is
the default lookup, and an unset setting processes a concrete 10 x 10
source under the medium quality. -/
theorem photoQuality_policy_witness :
    getPhotoQuality (some ("high")) = "high"
    ∧ PHOTO_SETTINGS ("medium") = some (1024, 7 / 10)
    ∧ ∃ d : ℤ × ℤ, processImage none 10 10 = ProcessOutcome.dataUri d (7 / 10) :=
  ⟨photoQuality_policy_spec.2.2.2.1 ("high") (by decide),
   photoQuality_policy_spec.2.2.2.2.1,
   photoQuality_policy_spec.2.2.2.2.2 10 10 (by decide) (by decide)⟩
